import Mathlib

/-!
Verification of the leave-balance consistency engine of the Buidco
backend (an Express/PostgreSQL leave-management API).  The JavaScript
source is shallowly embedded: pure validation helpers become Lean
functions, the relational store becomes an explicit `DB` value threaded
through each route handler, and fallible route handlers return their
resulting store paired with an `Except` outcome.  Dates are modelled as
integer day numbers (the source zeroes the time component before
comparing or subtracting dates, so a calendar date is exactly a day
count).  Balances are `Int`, matching the INTEGER columns of the
`employees` table.
-/

namespace Buidco

/-- A JavaScript value as returned by `validateLeaveDays` in
`utils/validation.js`: the function returns either a boolean or (via
the expression `days <= maxDays[leaveType] || 30`) the number 30. -/
inductive JsVal where
  | bool (b : Bool)
  | num (n : Int)
  deriving Repr, DecidableEq

/-- JavaScript truthiness for the values `validateLeaveDays` can
produce: `false` is falsy, `true` is truthy, a number is truthy iff it
is nonzero. -/
def JsVal.truthy : JsVal → Bool
  | .bool b => b
  | .num n => n != 0

/-- JavaScript `String.prototype.toUpperCase` (ASCII range), written
over the character list so it evaluates by kernel reduction. -/
def jsToUpper (s : String) : String :=
  ⟨s.data.map Char.toUpper⟩

/-- JavaScript `String.prototype.toLowerCase` (ASCII range); SQL
`LOWER` agrees with it on the ASCII identifiers this system stores. -/
def jsToLower (s : String) : String :=
  ⟨s.data.map Char.toLower⟩

/-- JavaScript `String.prototype.trim`: strip leading and trailing
whitespace. -/
def jsTrim (s : String) : String :=
  ⟨((s.data.dropWhile Char.isWhitespace).reverse.dropWhile Char.isWhitespace).reverse⟩

/-- `validateLeaveType` from `utils/validation.js`:
`(type || '').toUpperCase().trim()` is a member of `['CL','RH','EL']`. -/
def validateLeaveType (type : String) : Bool :=
  ["CL", "RH", "EL"].contains (jsTrim (jsToUpper type))

/-- `normalizeLeaveType` from `utils/validation.js`: the canonical
upper-cased, trimmed type when it is one of CL/RH/EL, otherwise
`null` (modelled as `none`). -/
def normalizeLeaveType (type : String) : Option String :=
  let normalizedType := jsTrim (jsToUpper type)
  if ["CL", "RH", "EL"].contains normalizedType then some normalizedType
  else none

/-- `normalizeLeaveBalance` from `utils/validation.js` applied to a
value read from an INTEGER column (so the `parseInt` coercion is the
identity and the null/NaN branches cannot fire): `Math.max(0, n)`. -/
def normalizeLeaveBalance (balance : Int) : Int :=
  max 0 balance

/-- `validateDateRange` from `utils/validation.js` on day numbers:
`start >= today && end >= start` (the source zeroes today's time
component; dates are day numbers here). -/
def validateDateRange (startDate endDate today : Int) : Bool :=
  today ≤ startDate && startDate ≤ endDate

/-- `calculateLeaveDays` from `utils/validation.js` on day numbers:
`Math.max(1, Math.floor((end - start) / 86400000) + 1)`; with both
times zeroed the floored quotient is exactly `end - start` days. -/
def calculateLeaveDays (startDate endDate : Int) : Int :=
  max 1 (endDate - startDate + 1)

/-- The `maxDays` lookup table inside `validateLeaveDays`
(`{CL: 30, RH: 15, EL: 60}`); `none` models an `undefined` property
access for any other key. -/
def maxDaysFor (leaveType : String) : Option Int :=
  if leaveType = "CL" then some 30
  else if leaveType = "RH" then some 15
  else if leaveType = "EL" then some 60
  else none

/-- `validateLeaveDays` from `utils/validation.js`, kept
operator-faithful: after the `days < 1` guard the function returns the
JavaScript expression `days <= maxDays[leaveType] || 30`, which is
`true` when the comparison holds and otherwise the (truthy) number 30;
a comparison against an `undefined` entry is `false`, so the `|| 30`
arm also fires for unknown types. -/
def validateLeaveDays (days : Int) (leaveType : String) : JsVal :=
  if days < 1 then .bool false
  else
    match maxDaysFor leaveType with
    | some m => if days ≤ m then .bool true else .num 30
    | none => .num 30

/-- `validateEmployeeId` from `utils/validation.js`:
`employeeId && employeeId.trim() !== ''`. -/
def validateEmployeeId (employeeId : String) : Bool :=
  employeeId ≠ "" && jsTrim employeeId ≠ ""

/-- `sanitizeInput` from `utils/validation.js`:
`input.trim().replace(/[<>]/g, '')` — trim, then delete every angle
bracket. -/
def sanitizeInput (input : String) : String :=
  ⟨(jsTrim input).data.filter (fun c => c != '<' && c != '>')⟩

/-- The three-case date-range disjunction of the overlap query in
`routes/leaves.js` (`router.post('/')`), with `[s1,e1]` the existing
row's range and `[s2,e2]` the requested range:
`(start_date <= $2 AND end_date >= $2) OR
 (start_date <= $3 AND end_date >= $3) OR
 (start_date >= $2 AND end_date <= $3)`. -/
def jsOverlap (s1 e1 s2 e2 : Int) : Bool :=
  (decide (s1 ≤ s2) && decide (s2 ≤ e1)) ||
  (decide (s1 ≤ e2) && decide (e2 ≤ e1)) ||
  (decide (s2 ≤ s1) && decide (e1 ≤ e2))

/-- A row of the `employees` table, restricted to the columns the
leave-balance engine reads or writes. -/
structure Employee where
  employee_id : String
  cl_balance : Int
  rh_balance : Int
  el_balance : Int
  deriving Repr, DecidableEq

/-- A row of the `leaves` table, restricted to the columns the engine
reads or writes (timestamps are elided). -/
structure Leave where
  id : Nat
  employee_id : String
  leave_type : String
  start_date : Int
  end_date : Int
  days : Int
  reason : String
  status : String
  approved_by : Option String
  document_path : Option String
  deriving Repr, DecidableEq

/-- The relational store: the `employees` and `leaves` tables, plus the
`SERIAL` counter that supplies the next leave id. -/
structure DB where
  employees : List Employee
  leaves : List Leave
  nextLeaveId : Nat
  deriving Repr, DecidableEq

/-- The error taxonomy the route handlers surface.  `storeFailure`
covers errors raised by the store itself (malformed query, injected
connection failure) which the handlers convert to a generic 500. -/
inductive ApiError where
  | validationError (msg : String)
  | notFound (msg : String)
  | insufficientBalance (leaveType : String) (available : Option Int) (requested : Int)
  | overlapConflict
  | invalidTransition
  | invalidState
  | storeFailure
  deriving Repr, DecidableEq

/-- Dynamic property access `employee[leave_type.toLowerCase() + '_balance']`
as used by the balance checks in `routes/leaves.js`: `none` models an
`undefined` result when the computed field name is not one of the three
balance columns. -/
def balanceOf (e : Employee) (field : String) : Option Int :=
  if field = "cl_balance" then some e.cl_balance
  else if field = "rh_balance" then some e.rh_balance
  else if field = "el_balance" then some e.el_balance
  else none

/-- Write `employee[field] = v` for a balance column; any other field
name leaves the row unchanged (such a write is never reached on rows
satisfying the table's CHECK constraint on `leave_type`). -/
def setBalance (e : Employee) (field : String) (v : Int) : Employee :=
  if field = "cl_balance" then { e with cl_balance := v }
  else if field = "rh_balance" then { e with rh_balance := v }
  else if field = "el_balance" then { e with el_balance := v }
  else e

/-- The JavaScript comparison `employee[balanceField] < days`: comparing
`undefined` with a number yields `false`. -/
def jsLtOpt (a : Option Int) (b : Int) : Bool :=
  match a with
  | some x => decide (x < b)
  | none => false

/-- `SELECT ... FROM employees WHERE LOWER(employee_id) = LOWER($1)` —
the case-insensitive employee lookup used by the employees routes and
by leave creation's employee resolution. -/
def findEmployeeCI (db : DB) (employeeId : String) : Option Employee :=
  db.employees.find? (fun e => jsToLower e.employee_id == jsToLower employeeId)

/-- `SELECT ... FROM employees WHERE employee_id = $1` — the exact
(case-sensitive) employee lookup used by `normalizeEmployeeBalances` in
`utils/database.js`. -/
def findEmployeeExact (db : DB) (employeeId : String) : Option Employee :=
  db.employees.find? (fun e => e.employee_id == employeeId)

/-- `SELECT * FROM leaves WHERE id = $1`. -/
def findLeave (db : DB) (leaveId : Nat) : Option Leave :=
  db.leaves.find? (fun l => l.id == leaveId)

/-- Injected store-failure point for `normalizeEmployeeBalances`,
modelling a read or write error inside its transaction. -/
inductive FailMode where
  | noFail
  | failOnRead
  | failOnWrite
  deriving Repr, DecidableEq

/-- `normalizeEmployeeBalances(employeeId)` from `utils/database.js`.
The body runs inside `BEGIN ... COMMIT` with `ROLLBACK` on any error,
so the returned store is the original one on every error path and the
fully updated one only on commit.  The employee lookup is the exact
`WHERE employee_id = $1`; the three balances are clamped to
`min(cap, normalizeLeaveBalance(value))` with caps CL 30, RH 15, EL 18,
and written back by one UPDATE to every row matching the id. -/
def normalizeEmployeeBalances (db : DB) (employeeId : String) (fail : FailMode) :
    DB × Except ApiError (Int × Int × Int) :=
  if fail = FailMode.failOnRead then (db, .error .storeFailure)
  else
    match findEmployeeExact db employeeId with
    | none => (db, .error (.notFound "Employee not found"))
    | some employee =>
      let cl := min 30 (normalizeLeaveBalance employee.cl_balance)
      let rh := min 15 (normalizeLeaveBalance employee.rh_balance)
      let el := min 18 (normalizeLeaveBalance employee.el_balance)
      if fail = FailMode.failOnWrite then (db, .error .storeFailure)
      else
        ({ db with
            employees := db.employees.map (fun e =>
              if e.employee_id == employeeId then
                { e with cl_balance := cl, rh_balance := rh, el_balance := el }
              else e) },
         .ok (cl, rh, el))

/-- `checkDataIntegrity` from `utils/database.js`: first normalize every
employee returned by the negative-balance query
(`cl_balance < 0 OR rh_balance < 0 OR el_balance < 0`), then, on the
updated store, normalize every employee returned by the high-balance
query (`cl_balance > 30 OR rh_balance > 15 OR el_balance > 30`). -/
def checkDataIntegrity (db : DB) : DB :=
  let negativeRows := db.employees.filter (fun e =>
    e.cl_balance < 0 || e.rh_balance < 0 || e.el_balance < 0)
  let db1 := negativeRows.foldl
    (fun d e => (normalizeEmployeeBalances d e.employee_id .noFail).1) db
  let highRows := db1.employees.filter (fun e =>
    e.cl_balance > 30 || e.rh_balance > 15 || e.el_balance > 30)
  highRows.foldl
    (fun d e => (normalizeEmployeeBalances d e.employee_id .noFail).1) db1

/-- `router.post('/')` from `routes/leaves.js` — leave creation.  Dates
are day numbers, so the `!start_date || !end_date` presence check of
the source cannot fire and is omitted.  Note two verbatim quirks of
the source: the balance field name is built from the *raw* request
`leave_type` (`leave_type.toLowerCase() + '_balance'`), and the
overlap query matches `employee_id = $1` exactly (no `LOWER`). -/
def createLeave (db : DB) (employee_id leave_type : String)
    (start_date end_date : Int) (reason : String) (today : Int)
    (document : Option String) : DB × Except ApiError Leave :=
  if !validateEmployeeId employee_id then
    (db, .error (.validationError "Valid employee ID is required"))
  else if !validateLeaveType leave_type then
    (db, .error (.validationError "Valid leave type is required (CL, RH, EL)"))
  else if !validateDateRange start_date end_date today then
    (db, .error (.validationError "Invalid date range"))
  else if jsTrim reason = "" then
    (db, .error (.validationError "Reason is required"))
  else
    match findEmployeeCI db (jsTrim employee_id) with
    | none => (db, .error (.notFound "Employee not found"))
    | some employee =>
      let days := calculateLeaveDays start_date end_date
      if !(validateLeaveDays days leave_type).truthy then
        (db, .error (.validationError "Leave days exceed maximum limit"))
      else
        let balanceField := jsToLower leave_type ++ "_balance"
        if jsLtOpt (balanceOf employee balanceField) days then
          (db, .error (.insufficientBalance leave_type (balanceOf employee balanceField) days))
        else if db.leaves.any (fun l =>
            l.employee_id == jsTrim employee_id && l.status != "REJECTED" &&
            jsOverlap l.start_date l.end_date start_date end_date) then
          (db, .error .overlapConflict)
        else
          let lv : Leave :=
            { id := db.nextLeaveId
              employee_id := jsTrim employee_id
              leave_type := (normalizeLeaveType leave_type).getD ""
              start_date := start_date
              end_date := end_date
              days := days
              reason := sanitizeInput (jsTrim reason)
              status := "PENDING"
              approved_by := none
              document_path := document }
          ({ db with leaves := db.leaves ++ [lv], nextLeaveId := db.nextLeaveId + 1 },
           .ok lv)

/-- `router.put('/:leaveId/status')` from `routes/leaves.js`.  The read
query interpolates its select list:
`SELECT l.*, e.${status === 'APPROVED' ? 'cl_balance, rh_balance, el_balance' : ''} FROM ...`,
so for any status other than APPROVED it degenerates to
`SELECT l.*, e. FROM leaves l JOIN ...` — a malformed statement the
store rejects, surfaced as a generic failure before any row is read.
On the APPROVED path the status/approver update of the leave row and
the balance deduction are two separate statements with no transaction,
so a failing deduction leaves the status update in place. -/
def setLeaveStatus (db : DB) (leaveId : Nat) (status : String)
    (approved_by : String) : DB × Except ApiError Unit :=
  if !(["APPROVED", "REJECTED"].contains status) then
    (db, .error (.validationError "Status must be APPROVED or REJECTED"))
  else if approved_by = "" then
    (db, .error (.validationError "Approver ID is required"))
  else if status ≠ "APPROVED" then
    (db, .error .storeFailure)
  else
    match findLeave db leaveId with
    | none => (db, .error (.notFound "Leave not found"))
    | some leave =>
      match findEmployeeExact db leave.employee_id with
      | none => (db, .error (.notFound "Leave not found"))
      | some employee =>
        if leave.status ≠ "PENDING" then
          (db, .error .invalidTransition)
        else
          let db1 := { db with leaves := db.leaves.map (fun l =>
            if l.id == leaveId then
              { l with status := status, approved_by := some approved_by }
            else l) }
          let balanceField := jsToLower leave.leave_type ++ "_balance"
          match balanceOf employee balanceField with
          | none => (db1, .error .storeFailure)
          | some bal =>
            ({ db1 with employees := db1.employees.map (fun e =>
                if e.employee_id == leave.employee_id then
                  setBalance e balanceField (bal - leave.days)
                else e) },
             .ok ())

/-- `router.delete('/:leaveId')` from `routes/leaves.js` (the deletion
of an attached document file is a filesystem side effect outside the
store and is elided). -/
def deleteLeave (db : DB) (leaveId : Nat) : DB × Except ApiError Unit :=
  match findLeave db leaveId with
  | none => (db, .error (.notFound "Leave not found"))
  | some leave =>
    if leave.status ≠ "PENDING" then
      (db, .error .invalidState)
    else
      ({ db with leaves := db.leaves.filter (fun l => !(l.id == leaveId)) }, .ok ())

/-- `router.get('/:employeeId')` from `routes/employees.js`: a
case-insensitive lookup whose response copy has its balances passed
through `normalizeLeaveBalance` (the store is not written). -/
def getEmployee (db : DB) (employeeId : String) : Except ApiError Employee :=
  if !validateEmployeeId employeeId then
    .error (.validationError "Valid employee ID is required")
  else
    match findEmployeeCI db (jsTrim employeeId) with
    | none => .error (.notFound "Employee not found")
    | some e =>
      .ok { e with
        cl_balance := normalizeLeaveBalance e.cl_balance
        rh_balance := normalizeLeaveBalance e.rh_balance
        el_balance := normalizeLeaveBalance e.el_balance }

/-! ### Helper lemmas -/

/-- `find?` commutes with a map that does not change the predicate's
verdict (used for the single-row UPDATE statements, which preserve the
key column they are selected by). -/
theorem find?_map_pres {α : Type} (p : α → Bool) (f : α → α)
    (hf : ∀ a, p (f a) = p a) :
    ∀ l : List α, (l.map f).find? p = (l.find? p).map f := by
  intro l
  induction l with
  | nil => rfl
  | cons a t ih =>
    by_cases h : p a = true
    · simp [List.find?, hf a, h]
    · simp only [Bool.not_eq_true] at h
      simp [List.find?, hf a, h, ih]

/-- Mapping `g` over an already-mapped list is the identity when `g`
fixes every mapped element. -/
theorem map_fix {α : Type} (f g : α → α) :
    ∀ l : List α, (∀ a ∈ l, g (f a) = f a) → (l.map f).map g = l.map f := by
  intro l
  induction l with
  | nil => intro _; rfl
  | cons a t ih =>
    intro h
    simp only [List.map_cons, List.cons.injEq]
    exact ⟨h a (List.mem_cons_self a t), ih (fun x hx => h x (List.mem_cons_of_mem a hx))⟩

/-- `setBalance` never changes the key column. -/
theorem setBalance_employee_id (e : Employee) (field : String) (v : Int) :
    (setBalance e field v).employee_id = e.employee_id := by
  unfold setBalance
  split <;> try rfl
  split <;> try rfl
  split <;> rfl

/-- For a day count of at least 1, `validateLeaveDays` is truthy for
every type string: the in-cap comparison yields `true`, and the
out-of-cap or unknown-type comparison falls through `|| 30` to the
truthy number 30 — the per-type cap is never actually enforced. -/
theorem validateLeaveDays_truthy (days : Int) (t : String) (h : 1 ≤ days) :
    (validateLeaveDays days t).truthy = true := by
  unfold validateLeaveDays
  have h1 : ¬ days < 1 := by omega
  simp only [h1, if_false]
  cases maxDaysFor t with
  | none => rfl
  | some m =>
    by_cases h2 : days ≤ m
    · simp [h2, JsVal.truthy]
    · simp [h2, JsVal.truthy]

/-- `validateLeaveType` on a canonical type string. -/
theorem validateLeaveType_canonical (t : String) (h : t ∈ ["CL", "RH", "EL"]) :
    validateLeaveType t = true := by
  simp only [List.mem_cons, List.not_mem_nil, or_false] at h
  rcases h with h | h | h <;> subst h <;> decide

/-! ### C3 — the overlap predicate -/

/-- C3: for valid ranges (`s1 ≤ e1`, `s2 ≤ e2`), the three-case
disjunction of the source's overlap query (`jsOverlap`, the predicate
leave creation branches on) holds exactly when the inclusive-interval
overlap predicate `s1 ≤ e2 ∧ s2 ≤ e1` does. -/
theorem jsOverlap_iff_inclusive (s1 e1 s2 e2 : Int)
    (h1 : s1 ≤ e1) (h2 : s2 ≤ e2) :
    jsOverlap s1 e1 s2 e2 = true ↔ (s1 ≤ e2 ∧ s2 ≤ e1) := by
  simp only [jsOverlap, Bool.or_eq_true, Bool.and_eq_true, decide_eq_true_eq]
  omega

/-- Witness for C3 at concrete ranges `[1,3]` and `[2,5]`. -/
theorem jsOverlap_iff_inclusive_witness :
    (1 : Int) ≤ 3 ∧ (2 : Int) ≤ 5 ∧
    (jsOverlap 1 3 2 5 = true ↔ ((1 : Int) ≤ 5 ∧ (2 : Int) ≤ 3)) :=
  ⟨by decide, by decide, jsOverlap_iff_inclusive 1 3 2 5 (by decide) (by decide)⟩

/-! ### C5 — per-type day caps -/

/-- C5: `validateLeaveDays` does reject `days < 1`, but for a day count
above the per-type cap it evaluates `days <= maxDays[leaveType] || 30`
to the number 30, a truthy value, so the route's `!validateLeaveDays`
guard does not fire: at days = 31 with type CL the function returns 30
rather than `false`, contradicting its own cap comments. -/
theorem validateLeaveDays_overCap_truthy :
    validateLeaveDays 31 "CL" = JsVal.num 30 ∧
    (validateLeaveDays 31 "CL").truthy = true ∧
    validateLeaveDays 0 "CL" = JsVal.bool false ∧
    validateLeaveDays 30 "CL" = JsVal.bool true := by
  refine ⟨?_, ?_, ?_, ?_⟩ <;> decide

/-! ### C7 — the status state machine -/

/-- C7: evaluating the status route at its failing input.  Because the
interpolated select list is empty for any status other than APPROVED,
`SetStatus(..., 'REJECTED', ...)` always fails with a store-level
failure — on an APPROVED request it does not fail with
InvalidTransition as the claim states, and even a PENDING request can
never be rejected. -/
theorem setStatus_rejected_storeFailure :
    (setLeaveStatus
        ⟨[⟨"E1", 10, 15, 18⟩],
         [⟨7, "E1", "CL", 100, 102, 3, "r", "APPROVED", some "A", none⟩], 8⟩
        7 "REJECTED" "ADM")
      = (⟨[⟨"E1", 10, 15, 18⟩],
          [⟨7, "E1", "CL", 100, 102, 3, "r", "APPROVED", some "A", none⟩], 8⟩,
         .error .storeFailure) ∧
    (setLeaveStatus
        ⟨[⟨"E1", 10, 15, 18⟩],
         [⟨9, "E1", "CL", 100, 102, 3, "r", "PENDING", none, none⟩], 10⟩
        9 "REJECTED" "ADM").2
      = .error .storeFailure := by
  exact ⟨rfl, rfl⟩

/-! ### C2 — insufficient balance on creation -/

/-- C2 counterexample: the balance check indexes the employee row with
the *raw* request string (`' cl '.toLowerCase() + '_balance'` is
`' cl _balance'`, not a column), and `undefined < days` is `false`, so
a request whose type is valid but not canonical (here `' cl '`) passes
the balance check even though the employee's CL balance (0) is below
the requested days (1), and a record is persisted. -/
theorem create_paddedType_skips_balance :
    createLeave ⟨[⟨"E1", 0, 0, 0⟩], [], 1⟩ "E1" " cl " 100 100 "trip" 100 none
      = (⟨[⟨"E1", 0, 0, 0⟩],
          [⟨1, "E1", "CL", 100, 100, 1, "trip", "PENDING", none, none⟩], 2⟩,
         .ok ⟨1, "E1", "CL", 100, 100, 1, "trip", "PENDING", none, none⟩) ∧
    balanceOf ⟨"E1", 0, 0, 0⟩ (jsToLower " cl " ++ "_balance") = none ∧
    (0 : Int) < calculateLeaveDays 100 100 := by
  exact ⟨rfl, by decide, by decide⟩

/-- C2 (amended to canonically-spelled types): when the request's leave
type is exactly CL, RH or EL and the resolved employee's balance for it
is below the computed day count, creation fails with
InsufficientBalance carrying the available and requested amounts, and
the store is returned unchanged. -/
theorem create_insufficientBalance_canonical
    (db : DB) (employee_id leave_type : String) (s e : Int) (reason : String)
    (today : Int) (doc : Option String) (emp : Employee) (b : Int)
    (ht : leave_type = "CL" ∨ leave_type = "RH" ∨ leave_type = "EL")
    (hid : validateEmployeeId employee_id = true)
    (hdr : validateDateRange s e today = true)
    (hr : ¬ jsTrim reason = "")
    (hemp : findEmployeeCI db (jsTrim employee_id) = some emp)
    (hb : balanceOf emp (jsToLower leave_type ++ "_balance") = some b)
    (hlt : b < calculateLeaveDays s e) :
    createLeave db employee_id leave_type s e reason today doc
      = (db, .error (.insufficientBalance leave_type (some b) (calculateLeaveDays s e))) := by
  have hvt : validateLeaveType leave_type = true := by
    rcases ht with h | h | h <;> subst h <;> decide
  have hdays : (validateLeaveDays (calculateLeaveDays s e) leave_type).truthy = true :=
    validateLeaveDays_truthy _ _ (le_max_left 1 _)
  have hjs : jsLtOpt (some b) (calculateLeaveDays s e) = true := by
    simpa [jsLtOpt] using hlt
  unfold createLeave
  rw [hid, hvt, hdr]
  simp only [Bool.not_true, Bool.false_eq_true, if_false, hr, hemp, hdays, hjs, if_true, hb]

/-- Witness for the amended C2 at a concrete store: employee `E1` has
CL balance 0 and requests 1 day of CL. -/
theorem create_insufficientBalance_canonical_witness :
    createLeave ⟨[⟨"E1", 0, 0, 0⟩], [], 1⟩ "E1" "CL" 100 100 "trip" 100 none
      = (⟨[⟨"E1", 0, 0, 0⟩], [], 1⟩,
         .error (.insufficientBalance "CL" (some 0) (calculateLeaveDays 100 100))) :=
  create_insufficientBalance_canonical ⟨[⟨"E1", 0, 0, 0⟩], [], 1⟩ "E1" "CL"
    100 100 "trip" 100 none ⟨"E1", 0, 0, 0⟩ 0
    (Or.inl rfl) (by decide) (by decide) (by decide) (by decide) (by decide) (by decide)

/-! ### C8 / C9 — normalization rollback, NotFound, lookup case -/

/-- C8: `normalizeEmployeeBalances` runs in a transaction with rollback,
so every error outcome — injected read failure, injected write failure,
or an unresolved employee id — returns the prior store untouched; and
with no injected failure an unresolved id fails precisely with
NotFound. -/
theorem normalizeBalances_rollback_notFound (db : DB) (id : String) (fail : FailMode) :
    (∀ err : ApiError, (normalizeEmployeeBalances db id fail).2 = .error err →
       (normalizeEmployeeBalances db id fail).1 = db) ∧
    (fail = .noFail → findEmployeeExact db id = none →
       normalizeEmployeeBalances db id fail = (db, .error (.notFound "Employee not found"))) := by
  constructor
  · intro err herr
    unfold normalizeEmployeeBalances at herr ⊢
    cases fail with
    | failOnRead => rfl
    | noFail =>
      cases hf : findEmployeeExact db id with
      | none => simp [hf]
      | some emp => simp [hf] at herr ⊢
    | failOnWrite =>
      cases hf : findEmployeeExact db id with
      | none => simp [hf]
      | some emp => simp [hf]
  · intro hfail hnone
    subst hfail
    unfold normalizeEmployeeBalances
    simp [hnone]

/-- Witness for C8: NotFound on an empty store leaves it unchanged, and
an injected write failure on a present employee also leaves the store
unchanged. -/
theorem normalizeBalances_rollback_notFound_witness :
    normalizeEmployeeBalances ⟨[], [], 0⟩ "X" .noFail
      = (⟨[], [], 0⟩, .error (.notFound "Employee not found")) ∧
    (normalizeEmployeeBalances ⟨[⟨"A", 50, 50, 50⟩], [], 0⟩ "A" .failOnWrite).1
      = ⟨[⟨"A", 50, 50, 50⟩], [], 0⟩ :=
  ⟨(normalizeBalances_rollback_notFound ⟨[], [], 0⟩ "X" .noFail).2 rfl rfl,
   (normalizeBalances_rollback_notFound ⟨[⟨"A", 50, 50, 50⟩], [], 0⟩ "A" .failOnWrite).1
     .storeFailure rfl⟩

/-- C9 counterexample: with an employee stored as `EMP1`, the
case-insensitive employee read resolves `emp1`, but the balance
normalization's exact lookup fails with NotFound for `emp1` while
succeeding for `EMP1` — so not every employee lookup normalizes case. -/
theorem normalizeBalances_caseSensitive_cex :
    normalizeEmployeeBalances ⟨[⟨"EMP1", 10, 5, 25⟩], [], 1⟩ "emp1" .noFail
      = (⟨[⟨"EMP1", 10, 5, 25⟩], [], 1⟩, .error (.notFound "Employee not found")) ∧
    (normalizeEmployeeBalances ⟨[⟨"EMP1", 10, 5, 25⟩], [], 1⟩ "EMP1" .noFail).2
      = .ok (10, 5, 18) ∧
    getEmployee ⟨[⟨"EMP1", 10, 5, 25⟩], [], 1⟩ "emp1" = .ok ⟨"EMP1", 10, 5, 25⟩ :=
  ⟨rfl, rfl, rfl⟩

/-- C9 (amended): the employee read (and the other `LOWER`-based
lookups) is case-insensitive — two identifiers equal up to trimming and
lower-casing resolve identically — while `normalizeEmployeeBalances`
matches the identifier exactly and fails with NotFound whenever no row
carries that exact spelling, even if a row matches case-insensitively. -/
theorem employeeLookup_case_sensitivity
    (db : DB) (id id2 : String)
    (hlow : jsToLower (jsTrim id) = jsToLower (jsTrim id2))
    (hv : validateEmployeeId id = true) (hv2 : validateEmployeeId id2 = true) :
    getEmployee db id = getEmployee db id2 ∧
    findEmployeeCI db (jsTrim id) = findEmployeeCI db (jsTrim id2) ∧
    (findEmployeeExact db id = none →
      normalizeEmployeeBalances db id .noFail
        = (db, .error (.notFound "Employee not found"))) := by
  have hci : findEmployeeCI db (jsTrim id) = findEmployeeCI db (jsTrim id2) := by
    unfold findEmployeeCI
    rw [hlow]
  refine ⟨?_, hci, ?_⟩
  · unfold getEmployee
    rw [hv, hv2, hci]
  · intro hnone
    unfold normalizeEmployeeBalances
    simp [hnone]

/-- Witness for the amended C9: `Emp1 ` and `emp1` resolve to the same
stored employee via the case-insensitive read, while the exact lookup
of normalization rejects `Emp1 `. -/
theorem employeeLookup_case_sensitivity_witness :
    getEmployee ⟨[⟨"EMP1", 10, 5, 25⟩], [], 1⟩ "Emp1 "
      = getEmployee ⟨[⟨"EMP1", 10, 5, 25⟩], [], 1⟩ "emp1" ∧
    normalizeEmployeeBalances ⟨[⟨"EMP1", 10, 5, 25⟩], [], 1⟩ "Emp1 " .noFail
      = (⟨[⟨"EMP1", 10, 5, 25⟩], [], 1⟩, .error (.notFound "Employee not found")) := by
  have h := employeeLookup_case_sensitivity ⟨[⟨"EMP1", 10, 5, 25⟩], [], 1⟩
    "Emp1 " "emp1" (by decide) (by decide) (by decide)
  exact ⟨h.1, h.2.2 rfl⟩

/-! ### C6 — the integrity sweep -/

/-- The balance ranges `normalizeEmployeeBalances` writes: each of the
three values is `min(cap, max(0, v))` with caps 30/15/18. -/
def ClampedEmp (e : Employee) : Prop :=
  0 ≤ e.cl_balance ∧ e.cl_balance ≤ 30 ∧
  0 ≤ e.rh_balance ∧ e.rh_balance ≤ 15 ∧
  0 ≤ e.el_balance ∧ e.el_balance ≤ 18

/-- Every row of the store after one normalization either is an
original row or has just been written with clamped balances. -/
theorem norm_row_mem (db : DB) (id : String) (e2 : Employee)
    (h : e2 ∈ (normalizeEmployeeBalances db id .noFail).1.employees) :
    e2 ∈ db.employees ∨ ClampedEmp e2 := by
  unfold normalizeEmployeeBalances at h
  simp only [reduceCtorEq, reduceIte] at h
  cases hf : findEmployeeExact db id with
  | none => rw [hf] at h; exact Or.inl h
  | some emp =>
    rw [hf] at h
    simp only [List.mem_map] at h
    obtain ⟨a, ha, hae⟩ := h
    by_cases hid : (a.employee_id == id) = true
    · rw [if_pos hid] at hae
      subst hae
      right
      simp only [ClampedEmp, normalizeLeaveBalance]
      omega
    · rw [if_neg hid] at hae
      subst hae
      exact Or.inl ha

/-- After one normalization of identifier `id`, every row carrying that
identifier has clamped balances (if no row carried it, vacuously). -/
theorem norm_row_mem_id (db : DB) (id : String) (e2 : Employee)
    (h : e2 ∈ (normalizeEmployeeBalances db id .noFail).1.employees)
    (hid : e2.employee_id = id) :
    ClampedEmp e2 := by
  unfold normalizeEmployeeBalances at h
  simp only [reduceCtorEq, reduceIte] at h
  cases hf : findEmployeeExact db id with
  | none =>
    rw [hf] at h
    have hnone := List.find?_eq_none.mp hf e2 h
    simp [hid] at hnone
  | some emp =>
    rw [hf] at h
    simp only [List.mem_map] at h
    obtain ⟨a, ha, hae⟩ := h
    by_cases hmatch : (a.employee_id == id) = true
    · rw [if_pos hmatch] at hae
      subst hae
      simp only [ClampedEmp, normalizeLeaveBalance]
      omega
    · rw [if_neg hmatch] at hae
      subst hae
      simp [hid] at hmatch

/-- A fold of normalizations (one pass of the sweep's repair loop):
every surviving row either is an untouched original whose identifier
was never repaired, or is clamped. -/
theorem sweep_fold_mem (L : List Employee) (db : DB) (e2 : Employee)
    (h : e2 ∈ (L.foldl
        (fun d x => (normalizeEmployeeBalances d x.employee_id .noFail).1)
        db).employees) :
    (e2 ∈ db.employees ∧ ∀ x ∈ L, e2.employee_id ≠ x.employee_id) ∨ ClampedEmp e2 := by
  induction L generalizing db with
  | nil => exact Or.inl ⟨h, by simp⟩
  | cons x xs ih =>
    simp only [List.foldl_cons] at h
    rcases ih _ h with ⟨hm, hall⟩ | hc
    · by_cases hid : e2.employee_id = x.employee_id
      · exact Or.inr (norm_row_mem_id db x.employee_id e2 hm hid)
      · rcases norm_row_mem db x.employee_id e2 hm with hmem | hcl
        · refine Or.inl ⟨hmem, ?_⟩
          intro y hy
          rcases List.mem_cons.mp hy with rfl | hy2
          · exact hid
          · exact hall y hy2
        · exact Or.inr hcl
    · exact Or.inr hc

/-- C6 counterexample: an employee with `el_balance = 25` (above the
normalization cap of 18 but not above the sweep's detection threshold
of 30 for EL) is left untouched by the integrity sweep. -/
theorem sweep_misses_el25 :
    checkDataIntegrity ⟨[⟨"E1", 10, 5, 25⟩], [], 1⟩ = ⟨[⟨"E1", 10, 5, 25⟩], [], 1⟩ ∧
    ¬ ((25 : Int) ≤ 18) :=
  ⟨rfl, by decide⟩

/-- C6 (amended): the sweep triggers the normalizer on negative
balances and on balances above its detection thresholds
{CL: 30, RH: 15, EL: 30} — the EL threshold is 30, not the EL cap 18 —
so after one run every employee's balances lie in [0,30]×[0,15]×[0,30];
an EL balance in (18, 30] is not repaired. -/
theorem sweep_bounds (db : DB) (e2 : Employee)
    (h : e2 ∈ (checkDataIntegrity db).employees) :
    0 ≤ e2.cl_balance ∧ e2.cl_balance ≤ 30 ∧
    0 ≤ e2.rh_balance ∧ e2.rh_balance ≤ 15 ∧
    0 ≤ e2.el_balance ∧ e2.el_balance ≤ 30 := by
  simp only [checkDataIntegrity] at h
  rcases sweep_fold_mem _ _ _ h with ⟨hm1, hnot1⟩ | hc
  · have hnothigh : ¬(decide (e2.cl_balance > 30) || decide (e2.rh_balance > 15)
        || decide (e2.el_balance > 30)) = true := by
      intro hh
      exact hnot1 e2 (List.mem_filter.mpr ⟨hm1, hh⟩) rfl
    simp only [Bool.or_eq_true, decide_eq_true_eq, not_or, not_lt] at hnothigh
    rcases sweep_fold_mem _ _ _ hm1 with ⟨hm0, hnot0⟩ | hc0
    · have hnotneg : ¬(decide (e2.cl_balance < 0) || decide (e2.rh_balance < 0)
          || decide (e2.el_balance < 0)) = true := by
        intro hh
        exact hnot0 e2 (List.mem_filter.mpr ⟨hm0, hh⟩) rfl
      simp only [Bool.or_eq_true, decide_eq_true_eq, not_or, not_lt] at hnotneg
      omega
    · obtain ⟨h1, h2, h3, h4, h5, h6⟩ := hc0
      omega
  · obtain ⟨h1, h2, h3, h4, h5, h6⟩ := hc
    omega

/-- Witness for the amended C6: the sweep repairs `A` (negative CL) and
`B` (EL 50 above the 30 threshold); the repaired `B` row lies inside
the bounds. -/
theorem sweep_bounds_witness :
    0 ≤ (Employee.mk "B" 4 3 18).cl_balance ∧ (Employee.mk "B" 4 3 18).cl_balance ≤ 30 ∧
    0 ≤ (Employee.mk "B" 4 3 18).rh_balance ∧ (Employee.mk "B" 4 3 18).rh_balance ≤ 15 ∧
    0 ≤ (Employee.mk "B" 4 3 18).el_balance ∧ (Employee.mk "B" 4 3 18).el_balance ≤ 30 :=
  sweep_bounds ⟨[⟨"A", -5, 3, 2⟩, ⟨"B", 4, 3, 50⟩], [], 1⟩ ⟨"B", 4, 3, 18⟩ (by decide)

/-! ### C4 — normalization clamps and is idempotent -/

/-- Unfolded form of a successful `normalizeEmployeeBalances` run: the
three clamped values are returned and written to every row carrying the
identifier. -/
theorem norm_apply_found (db : DB) (id : String) (emp : Employee)
    (h : findEmployeeExact db id = some emp) :
    normalizeEmployeeBalances db id .noFail
      = ({ db with employees := db.employees.map (fun e =>
            if e.employee_id == id then
              { e with cl_balance := min 30 (normalizeLeaveBalance emp.cl_balance),
                       rh_balance := min 15 (normalizeLeaveBalance emp.rh_balance),
                       el_balance := min 18 (normalizeLeaveBalance emp.el_balance) }
            else e) },
         .ok (min 30 (normalizeLeaveBalance emp.cl_balance),
              min 15 (normalizeLeaveBalance emp.rh_balance),
              min 18 (normalizeLeaveBalance emp.el_balance))) := by
  unfold normalizeEmployeeBalances
  rw [h]
  rfl

/-- The first match of the exact lookup satisfies its predicate. -/
theorem findEmployeeExact_beq (db : DB) (id : String) (emp : Employee)
    (h : findEmployeeExact db id = some emp) :
    (emp.employee_id == id) = true := by
  unfold findEmployeeExact at h
  have hp := List.find?_some h
  simpa using hp

/-- The row-update of a normalization run does not change the key
column, so the exact lookup finds the updated first match. -/
theorem findEmployeeExact_after_norm (db : DB) (id : String) (emp : Employee)
    (h : findEmployeeExact db id = some emp) :
    findEmployeeExact (normalizeEmployeeBalances db id .noFail).1 id
      = some { emp with
          cl_balance := min 30 (normalizeLeaveBalance emp.cl_balance)
          rh_balance := min 15 (normalizeLeaveBalance emp.rh_balance)
          el_balance := min 18 (normalizeLeaveBalance emp.el_balance) } := by
  have hemp := findEmployeeExact_beq db id emp h
  rw [norm_apply_found db id emp h]
  unfold findEmployeeExact at h ⊢
  rw [find?_map_pres _ _ (fun a => by by_cases ha : (a.employee_id == id) = true <;> simp [ha]),
      h, Option.map_some', if_pos hemp]

/-- C4: a successful `normalizeEmployeeBalances` returns exactly
`min(cap, normalizeLeaveBalance(stored))` for each of the three
balances, these lie in `[0, cap]`, every row with the identifier is
persisted with them, and a second run returns the same store and the
same three values. -/
theorem normalizeBalances_clamps_idempotent
    (db : DB) (id : String) (emp : Employee)
    (h : findEmployeeExact db id = some emp) :
    (normalizeEmployeeBalances db id .noFail).2
      = .ok (min 30 (normalizeLeaveBalance emp.cl_balance),
             min 15 (normalizeLeaveBalance emp.rh_balance),
             min 18 (normalizeLeaveBalance emp.el_balance)) ∧
    (0 ≤ min 30 (normalizeLeaveBalance emp.cl_balance) ∧
     min 30 (normalizeLeaveBalance emp.cl_balance) ≤ 30 ∧
     0 ≤ min 15 (normalizeLeaveBalance emp.rh_balance) ∧
     min 15 (normalizeLeaveBalance emp.rh_balance) ≤ 15 ∧
     0 ≤ min 18 (normalizeLeaveBalance emp.el_balance) ∧
     min 18 (normalizeLeaveBalance emp.el_balance) ≤ 18) ∧
    (∀ e2 ∈ (normalizeEmployeeBalances db id .noFail).1.employees,
       e2.employee_id = id →
         e2.cl_balance = min 30 (normalizeLeaveBalance emp.cl_balance) ∧
         e2.rh_balance = min 15 (normalizeLeaveBalance emp.rh_balance) ∧
         e2.el_balance = min 18 (normalizeLeaveBalance emp.el_balance)) ∧
    normalizeEmployeeBalances (normalizeEmployeeBalances db id .noFail).1 id .noFail
      = ((normalizeEmployeeBalances db id .noFail).1,
         .ok (min 30 (normalizeLeaveBalance emp.cl_balance),
              min 15 (normalizeLeaveBalance emp.rh_balance),
              min 18 (normalizeLeaveBalance emp.el_balance))) := by
  have hrun := norm_apply_found db id emp h
  refine ⟨by rw [hrun], ?_, ?_, ?_⟩
  · simp only [normalizeLeaveBalance]
    omega
  · intro e2 hmem hid
    rw [hrun] at hmem
    simp only [List.mem_map] at hmem
    obtain ⟨a, _, hae⟩ := hmem
    by_cases hmatch : (a.employee_id == id) = true
    · rw [if_pos hmatch] at hae
      subst hae
      exact ⟨rfl, rfl, rfl⟩
    · rw [if_neg hmatch] at hae
      subst hae
      simp [hid] at hmatch
  · have hfind2 := findEmployeeExact_after_norm db id emp h
    have hrun2 := norm_apply_found _ id _ hfind2
    rw [hrun2]
    have hvals :
        min 30 (normalizeLeaveBalance (min 30 (normalizeLeaveBalance emp.cl_balance)))
          = min 30 (normalizeLeaveBalance emp.cl_balance) ∧
        min 15 (normalizeLeaveBalance (min 15 (normalizeLeaveBalance emp.rh_balance)))
          = min 15 (normalizeLeaveBalance emp.rh_balance) ∧
        min 18 (normalizeLeaveBalance (min 18 (normalizeLeaveBalance emp.el_balance)))
          = min 18 (normalizeLeaveBalance emp.el_balance) := by
      simp only [normalizeLeaveBalance]
      omega
    obtain ⟨hv1, hv2, hv3⟩ := hvals
    rw [hrun]
    simp only [hv1, hv2, hv3, Prod.mk.injEq]
    constructor
    · congr 1
      apply map_fix
      intro a _
      by_cases hmatch : (a.employee_id == id) = true
      · simp [hmatch, hv1, hv2, hv3]
      · simp [hmatch]
    · trivial

/-- Witness for C4 at a concrete store: stored balances (-5, 99, 7)
normalize to (0, 15, 7). -/
theorem normalizeBalances_clamps_idempotent_witness :
    (normalizeEmployeeBalances ⟨[⟨"E9", -5, 99, 7⟩], [], 1⟩ "E9" .noFail).2
      = .ok (0, 15, 7) := by
  have h := (normalizeBalances_clamps_idempotent ⟨[⟨"E9", -5, 99, 7⟩], [], 1⟩
    "E9" ⟨"E9", -5, 99, 7⟩ rfl).1
  simpa [normalizeLeaveBalance] using h

/-! ### C10 — shape of a persisted leave record -/

/-- C10: every leave record a successful Create returns and persists
has status PENDING (the table default, since the INSERT omits the
column), a leave type equal to `normalizeLeaveType` of the request's
type — hence canonical, one of CL/RH/EL, even for lower-case or padded
input — and a day count of at least 1. -/
theorem create_success_invariants
    (db db2 : DB) (employee_id leave_type : String) (s e : Int)
    (reason : String) (today : Int) (doc : Option String) (lv : Leave)
    (h : createLeave db employee_id leave_type s e reason today doc = (db2, .ok lv)) :
    lv.status = "PENDING" ∧
    normalizeLeaveType leave_type = some lv.leave_type ∧
    (lv.leave_type = "CL" ∨ lv.leave_type = "RH" ∨ lv.leave_type = "EL") ∧
    1 ≤ lv.days ∧
    lv ∈ db2.leaves := by
  unfold createLeave at h
  split at h
  · simp at h
  split at h
  next hvt =>
    simp at h
  next hvt =>
  split at h
  · simp at h
  split at h
  · simp at h
  split at h
  · simp at h
  next emp hemp =>
  dsimp only at h
  split at h
  · simp at h
  split at h
  · simp at h
  split at h
  · simp at h
  rw [Prod.mk.injEq] at h
  obtain ⟨hdb2, hlv⟩ := h
  rw [Except.ok.injEq] at hlv
  subst hlv
  subst hdb2
  have hvt1 : validateLeaveType leave_type = true := by simpa using hvt
  have hvt2 : ["CL", "RH", "EL"].contains (jsTrim (jsToUpper leave_type)) = true := by
    unfold validateLeaveType at hvt1
    exact hvt1
  have hnt : normalizeLeaveType leave_type = some (jsTrim (jsToUpper leave_type)) := by
    unfold normalizeLeaveType
    dsimp only
    rw [if_pos hvt2]
  dsimp only
  refine ⟨rfl, ?_, ?_, le_max_left 1 _, by simp⟩
  · rw [hnt, Option.getD_some]
  · rw [hnt, Option.getD_some]
    simp at hvt2
    exact hvt2

/-- Witness for C10: a padded lower-case type `' cl '` is persisted as
canonical `CL` with status PENDING and 3 days. -/
theorem create_success_invariants_witness :
    (Leave.mk 1 "E1" "CL" 100 102 3 "fam" "PENDING" none none).status = "PENDING" ∧
    normalizeLeaveType " cl "
      = some (Leave.mk 1 "E1" "CL" 100 102 3 "fam" "PENDING" none none).leave_type ∧
    ((Leave.mk 1 "E1" "CL" 100 102 3 "fam" "PENDING" none none).leave_type = "CL" ∨
     (Leave.mk 1 "E1" "CL" 100 102 3 "fam" "PENDING" none none).leave_type = "RH" ∨
     (Leave.mk 1 "E1" "CL" 100 102 3 "fam" "PENDING" none none).leave_type = "EL") ∧
    1 ≤ (Leave.mk 1 "E1" "CL" 100 102 3 "fam" "PENDING" none none).days ∧
    Leave.mk 1 "E1" "CL" 100 102 3 "fam" "PENDING" none none
      ∈ (DB.mk [⟨"E1", 30, 15, 18⟩]
          [Leave.mk 1 "E1" "CL" 100 102 3 "fam" "PENDING" none none] 2).leaves :=
  create_success_invariants ⟨[⟨"E1", 30, 15, 18⟩], [], 1⟩
    ⟨[⟨"E1", 30, 15, 18⟩], [Leave.mk 1 "E1" "CL" 100 102 3 "fam" "PENDING" none none], 2⟩
    "E1" " cl " 100 102 "fam" 100 none
    (Leave.mk 1 "E1" "CL" 100 102 3 "fam" "PENDING" none none) rfl

/-! ### C1 — approval deducts, re-approval is rejected -/

/-- Writing a present balance field stores exactly the written value. -/
theorem balanceOf_setBalance (e2 : Employee) (field : String) (v b0 : Int)
    (h : balanceOf e2 field = some b0) :
    balanceOf (setBalance e2 field v) field = some v := by
  unfold balanceOf setBalance at *
  split_ifs at h ⊢ <;> simp_all

/-- C1: approving a PENDING leave succeeds, persists the APPROVED
status with the approver, and deducts the leave's day count from the
owning employee's balance for the leave's type; a second approval of
the same id then fails with InvalidTransition. -/
theorem setStatus_approve_deducts
    (db : DB) (leaveId : Nat) (approver approver2 : String)
    (leave : Leave) (emp : Employee) (b : Int)
    (hl : findLeave db leaveId = some leave)
    (hst : leave.status = "PENDING")
    (he : findEmployeeExact db leave.employee_id = some emp)
    (hb : balanceOf emp (jsToLower leave.leave_type ++ "_balance") = some b)
    (ha : approver ≠ "") (ha2 : approver2 ≠ "") :
    (setLeaveStatus db leaveId "APPROVED" approver).2 = .ok () ∧
    findLeave (setLeaveStatus db leaveId "APPROVED" approver).1 leaveId
      = some { leave with status := "APPROVED", approved_by := some approver } ∧
    (∃ e2, findEmployeeExact (setLeaveStatus db leaveId "APPROVED" approver).1 leave.employee_id
        = some e2 ∧
      balanceOf e2 (jsToLower leave.leave_type ++ "_balance") = some (b - leave.days)) ∧
    (setLeaveStatus (setLeaveStatus db leaveId "APPROVED" approver).1 leaveId
        "APPROVED" approver2).2
      = .error .invalidTransition := by
  have hne : ¬("APPROVED" ≠ "APPROVED") := by simp
  have hnp : ¬(leave.status ≠ "PENDING") := by rw [hst]; simp
  have hlbeq : (leave.id == leaveId) = true := by
    unfold findLeave at hl
    simpa using List.find?_some hl
  have hebeq := findEmployeeExact_beq db leave.employee_id emp he
  have hrun1 : setLeaveStatus db leaveId "APPROVED" approver
      = ({ db with
            leaves := db.leaves.map (fun l =>
              if l.id == leaveId then
                { l with status := "APPROVED", approved_by := some approver }
              else l),
            employees := db.employees.map (fun e2 =>
              if e2.employee_id == leave.employee_id then
                setBalance e2 (jsToLower leave.leave_type ++ "_balance") (b - leave.days)
              else e2) },
         .ok ()) := by
    unfold setLeaveStatus
    rw [show (["APPROVED", "REJECTED"].contains "APPROVED") = true from rfl]
    simp only [Bool.not_true, Bool.false_eq_true, if_false]
    rw [if_neg ha, if_neg hne, hl]
    try dsimp only
    rw [he]
    try dsimp only
    rw [if_neg hnp]
    try dsimp only
    rw [hb]
  have hfindL : findLeave (setLeaveStatus db leaveId "APPROVED" approver).1 leaveId
      = some { leave with status := "APPROVED", approved_by := some approver } := by
    rw [hrun1]
    unfold findLeave at hl ⊢
    dsimp only
    rw [find?_map_pres _ _ (fun a => by
          by_cases hc : (a.id == leaveId) = true <;> simp [hc]),
        hl, Option.map_some', if_pos hlbeq]
  have hfindE : findEmployeeExact (setLeaveStatus db leaveId "APPROVED" approver).1
        leave.employee_id
      = some (setBalance emp (jsToLower leave.leave_type ++ "_balance") (b - leave.days)) := by
    rw [hrun1]
    unfold findEmployeeExact at he ⊢
    dsimp only
    rw [find?_map_pres _ _ (fun a => by
          by_cases hc : (a.employee_id == leave.employee_id) = true <;>
            simp [hc, setBalance_employee_id]),
        he, Option.map_some', if_pos hebeq]
  refine ⟨by rw [hrun1], hfindL,
    ⟨setBalance emp (jsToLower leave.leave_type ++ "_balance") (b - leave.days), hfindE,
      balanceOf_setBalance emp _ _ b hb⟩, ?_⟩
  generalize hdb1 : (setLeaveStatus db leaveId "APPROVED" approver).1 = db1
    at hfindL hfindE ⊢
  unfold setLeaveStatus
  rw [show (["APPROVED", "REJECTED"].contains "APPROVED") = true from rfl]
  simp only [Bool.not_true, Bool.false_eq_true, if_false]
  rw [if_neg ha2, if_neg hne, hfindL]
  try dsimp only
  rw [hfindE]
  try dsimp only
  rw [if_pos (show ("APPROVED" : String) ≠ "PENDING" by decide)]

/-- Witness for C1 at the spec's example: a PENDING CL leave of 3 days
against a balance of 10 approves to balance 7, and a second approval
fails with InvalidTransition. -/
theorem setStatus_approve_deducts_witness :
    (setLeaveStatus
        ⟨[⟨"E1", 10, 15, 18⟩],
         [⟨7, "E1", "CL", 100, 102, 3, "r", "PENDING", none, none⟩], 8⟩
        7 "APPROVED" "ADM").2 = .ok () ∧
    findLeave (setLeaveStatus
        ⟨[⟨"E1", 10, 15, 18⟩],
         [⟨7, "E1", "CL", 100, 102, 3, "r", "PENDING", none, none⟩], 8⟩
        7 "APPROVED" "ADM").1 7
      = some ⟨7, "E1", "CL", 100, 102, 3, "r", "APPROVED", some "ADM", none⟩ ∧
    (∃ e2, findEmployeeExact (setLeaveStatus
        ⟨[⟨"E1", 10, 15, 18⟩],
         [⟨7, "E1", "CL", 100, 102, 3, "r", "PENDING", none, none⟩], 8⟩
        7 "APPROVED" "ADM").1 "E1" = some e2 ∧
      balanceOf e2 (jsToLower "CL" ++ "_balance") = some (10 - 3)) ∧
    (setLeaveStatus (setLeaveStatus
        ⟨[⟨"E1", 10, 15, 18⟩],
         [⟨7, "E1", "CL", 100, 102, 3, "r", "PENDING", none, none⟩], 8⟩
        7 "APPROVED" "ADM").1 7 "APPROVED" "ADM2").2
      = .error .invalidTransition :=
  setStatus_approve_deducts
    ⟨[⟨"E1", 10, 15, 18⟩],
     [⟨7, "E1", "CL", 100, 102, 3, "r", "PENDING", none, none⟩], 8⟩
    7 "ADM" "ADM2"
    ⟨7, "E1", "CL", 100, 102, 3, "r", "PENDING", none, none⟩
    ⟨"E1", 10, 15, 18⟩ 10
    rfl rfl rfl rfl (by decide) (by decide)

end Buidco
